import Mathlib

/-!
Verification of the wazergo typed marshalling layer.

This file is a shallow embedding, in Lean 4, of the parts of the wazergo
repository that the verified properties are about:

* the primitive scalar codecs of `types/types.go` (`Int8`, ..., `Float64`,
  `Bool`, `Duration`, `None`): their `LoadValue`/`StoreValue` operations on
  the operand stack and their `LoadObject`/`StoreObject` operations on byte
  records in linear memory;
* the composite codecs `Array`/`Bytes`/`String`, `Pointer`, `List` and
  `Optional`, together with the error conversion `AsErrno`;
* the bounds-checked memory primitives of `wasm/memory.go` and
  `wasm/wasm.go` (`Memory.isOutOfRange`, `Memory.Read`, `wasm.Read`,
  `Memory.WriteUint64Le`);
* the slot-boundary computation of the function binders `F0`..`F12` of
  `function.go` and `concatValueTypes` of `module.go`;
* the reflective struct layout engine of `types/struct.go`
  (`appendStructFields`, `structTypeOf`).

Modelling conventions:

* A 64-bit operand-stack word (`uint64` in Go) is a `Nat`; theorems carry
  the bound `< 2^64` where it matters.  Linear memory is a `List Nat` of
  bytes (each `< 256`).
* Machine integer conversions are explicit arithmetic: `uint32(x)` is
  `x % 2^32`, `int32(x)` is the two's-complement reinterpretation
  `sintCast 32 x`, and so on.  Nothing uses fixed-width Lean types.
* Go float32/float64 values are represented by their IEEE-754 bit
  patterns (a `Nat` below `2^32` resp. `2^64`).  This is faithful for the
  codecs because the Go code only ever moves float bits
  (`math.Float32frombits`/`Float32bits` and the wazero
  `api.DecodeF32`/`EncodeF32` pairs are mutually inverse bit-level
  conversions); no float arithmetic occurs in the marshalling layer.
* Go panics (`wasm.Read` out-of-range, `binary.PutUint64` on a short
  slice) are modelled with `Except`.
* Scalar codecs ignore their `api.Memory` argument in Go (the tests pass
  `nil`); the embedding drops that argument for them.  `Pointer`/`List`
  keep it, because Go `Pointer` captures the memory.
-/

namespace Wazergo

/-- The wazero `api.ValueType` word kinds (i32, i64, f32, f64). -/
inductive ValType where
  | i32
  | i64
  | f32
  | f64
deriving DecidableEq

/-- Reinterpretation of an integer as a signed two's-complement value of
the given bit width: the Go conversions `int8(x)`, `int16(x)`, `int32(x)`,
`int64(x)` from wider or unsigned values. -/
def sintCast (bits : Nat) (x : Int) : Int :=
  let m : Int := x % ((2 : Int) ^ bits)
  if m < (2 : Int) ^ (bits - 1) then m else m - (2 : Int) ^ bits

/-- The low `bits` bits of an integer, as a natural number: the Go
conversions `uint8(x)` .. `uint64(x)` applied to a signed value. -/
def intToBits (bits : Nat) (x : Int) : Nat :=
  (x % ((2 : Int) ^ bits)).toNat

/-- wazero `api.DecodeI32`: `int32(v)` for a `uint64` stack word. -/
def decodeI32 (w : Nat) : Int :=
  sintCast 32 (w : Int)

/-- wazero `api.EncodeI32`: `uint64(uint32(v))` for an `int32` value. -/
def encodeI32 (x : Int) : Nat :=
  intToBits 32 x

/-- wazero `api.DecodeU32`: `uint32(v)` for a `uint64` stack word. -/
def decodeU32 (w : Nat) : Nat :=
  w % 2 ^ 32

/-- Little-endian read of `n` bytes from the front of a byte list:
`binary.LittleEndian.Uint16/Uint32/Uint64`.  (Go panics when the buffer is
shorter than `n`; the codec contracts guarantee buffers of at least
`ObjectSize()` bytes, so the claims never evaluate it there.) -/
def readLE : Nat → List Nat → Nat
  | 0, _ => 0
  | _ + 1, [] => 0
  | n + 1, b :: rest => b % 256 + 256 * readLE n rest

/-- Little-endian write of the low `n` bytes of `v` over the front of a
byte list, keeping the tail: `binary.LittleEndian.PutUint16/32/64`.  (Same
buffer-length caveat as `readLE`.) -/
def writeLE : Nat → Nat → List Nat → List Nat
  | 0, _, object => object
  | _ + 1, _, [] => []
  | n + 1, v, _ :: rest => v % 256 :: writeLE n (v / 256) rest

/-- Go `types.Int8` stack shape. -/
def Int8.valueTypes : List ValType := [.i32]

/-- Go `types.Int8.LoadValue`: `Int8(api.DecodeI32(stack[0]))`. -/
def Int8.loadValue (stack : List Nat) : Int :=
  sintCast 8 (decodeI32 (stack.getD 0 0))

/-- Go `types.Int8.StoreValue`: `stack[0] = api.EncodeI32(int32(arg))`. -/
def Int8.storeValue (v : Int) (stack : List Nat) : List Nat :=
  stack.set 0 (encodeI32 v)

/-- Go `types.Int8.ObjectSize`. -/
def Int8.objectSize : Nat := 1

/-- Go `types.Int8.LoadObject`: `Int8(object[0])`. -/
def Int8.loadObject (object : List Nat) : Int :=
  sintCast 8 (object.getD 0 0)

/-- Go `types.Int8.StoreObject`: `object[0] = byte(arg)`. -/
def Int8.storeObject (v : Int) (object : List Nat) : List Nat :=
  object.set 0 (intToBits 8 v)

/-- Go `types.Int16` stack shape. -/
def Int16.valueTypes : List ValType := [.i32]

/-- Go `types.Int16.LoadValue`: `Int16(api.DecodeI32(stack[0]))`. -/
def Int16.loadValue (stack : List Nat) : Int :=
  sintCast 16 (decodeI32 (stack.getD 0 0))

/-- Go `types.Int16.StoreValue`: `stack[0] = api.EncodeI32(int32(arg))`. -/
def Int16.storeValue (v : Int) (stack : List Nat) : List Nat :=
  stack.set 0 (encodeI32 v)

/-- Go `types.Int16.ObjectSize`. -/
def Int16.objectSize : Nat := 2

/-- Go `types.Int16.LoadObject`: `Int16(binary.LittleEndian.Uint16(object))`. -/
def Int16.loadObject (object : List Nat) : Int :=
  sintCast 16 (readLE 2 object)

/-- Go `types.Int16.StoreObject`: `binary.LittleEndian.PutUint16(object, uint16(arg))`. -/
def Int16.storeObject (v : Int) (object : List Nat) : List Nat :=
  writeLE 2 (intToBits 16 v) object

/-- Go `types.Int32` stack shape. -/
def Int32.valueTypes : List ValType := [.i32]

/-- Go `types.Int32.LoadValue`: `Int32(api.DecodeI32(stack[0]))`. -/
def Int32.loadValue (stack : List Nat) : Int :=
  decodeI32 (stack.getD 0 0)

/-- Go `types.Int32.StoreValue`: `stack[0] = api.EncodeI32(int32(arg))`. -/
def Int32.storeValue (v : Int) (stack : List Nat) : List Nat :=
  stack.set 0 (encodeI32 v)

/-- Go `types.Int32.ObjectSize`. -/
def Int32.objectSize : Nat := 4

/-- Go `types.Int32.LoadObject`: `Int32(binary.LittleEndian.Uint32(object))`. -/
def Int32.loadObject (object : List Nat) : Int :=
  sintCast 32 (readLE 4 object)

/-- Go `types.Int32.StoreObject`: `binary.LittleEndian.PutUint32(object, uint32(arg))`. -/
def Int32.storeObject (v : Int) (object : List Nat) : List Nat :=
  writeLE 4 (intToBits 32 v) object

/-- Go `types.Int64` stack shape. -/
def Int64.valueTypes : List ValType := [.i64]

/-- Go `types.Int64.LoadValue`: `Int64(stack[0])`. -/
def Int64.loadValue (stack : List Nat) : Int :=
  sintCast 64 (stack.getD 0 0)

/-- Go `types.Int64.StoreValue`: `stack[0] = uint64(arg)`. -/
def Int64.storeValue (v : Int) (stack : List Nat) : List Nat :=
  stack.set 0 (intToBits 64 v)

/-- Go `types.Int64.ObjectSize`. -/
def Int64.objectSize : Nat := 8

/-- Go `types.Int64.LoadObject`: `Int64(binary.LittleEndian.Uint64(object))`. -/
def Int64.loadObject (object : List Nat) : Int :=
  sintCast 64 (readLE 8 object)

/-- Go `types.Int64.StoreObject`: `binary.LittleEndian.PutUint64(object, uint64(arg))`. -/
def Int64.storeObject (v : Int) (object : List Nat) : List Nat :=
  writeLE 8 (intToBits 64 v) object

/-- Go `types.Uint8` stack shape. -/
def Uint8.valueTypes : List ValType := [.i32]

/-- Go `types.Uint8.LoadValue`: `Uint8(api.DecodeU32(stack[0]))`. -/
def Uint8.loadValue (stack : List Nat) : Nat :=
  decodeU32 (stack.getD 0 0) % 2 ^ 8

/-- Go `types.Uint8.StoreValue`: `stack[0] = api.EncodeU32(uint32(arg))`.
The Go value of type `uint8` is below `2^8`; theorems carry that bound. -/
def Uint8.storeValue (v : Nat) (stack : List Nat) : List Nat :=
  stack.set 0 v

/-- Go `types.Uint8.ObjectSize`. -/
def Uint8.objectSize : Nat := 1

/-- Go `types.Uint8.LoadObject`: `Uint8(object[0])`. -/
def Uint8.loadObject (object : List Nat) : Nat :=
  object.getD 0 0

/-- Go `types.Uint8.StoreObject`: `object[0] = byte(arg)`. -/
def Uint8.storeObject (v : Nat) (object : List Nat) : List Nat :=
  object.set 0 v

/-- Go `types.Uint16` stack shape. -/
def Uint16.valueTypes : List ValType := [.i32]

/-- Go `types.Uint16.LoadValue`: `Uint16(api.DecodeU32(stack[0]))`. -/
def Uint16.loadValue (stack : List Nat) : Nat :=
  decodeU32 (stack.getD 0 0) % 2 ^ 16

/-- Go `types.Uint16.StoreValue`: `stack[0] = api.EncodeU32(uint32(arg))`. -/
def Uint16.storeValue (v : Nat) (stack : List Nat) : List Nat :=
  stack.set 0 v

/-- Go `types.Uint16.ObjectSize`. -/
def Uint16.objectSize : Nat := 2

/-- Go `types.Uint16.LoadObject`: `Uint16(binary.LittleEndian.Uint16(object))`. -/
def Uint16.loadObject (object : List Nat) : Nat :=
  readLE 2 object

/-- Go `types.Uint16.StoreObject`: `binary.LittleEndian.PutUint16(object, uint16(arg))`. -/
def Uint16.storeObject (v : Nat) (object : List Nat) : List Nat :=
  writeLE 2 v object

/-- Go `types.Uint32` stack shape. -/
def Uint32.valueTypes : List ValType := [.i32]

/-- Go `types.Uint32.LoadValue`: `Uint32(api.DecodeU32(stack[0]))`. -/
def Uint32.loadValue (stack : List Nat) : Nat :=
  decodeU32 (stack.getD 0 0)

/-- Go `types.Uint32.StoreValue`: `stack[0] = api.EncodeU32(uint32(arg))`. -/
def Uint32.storeValue (v : Nat) (stack : List Nat) : List Nat :=
  stack.set 0 v

/-- Go `types.Uint32.ObjectSize`. -/
def Uint32.objectSize : Nat := 4

/-- Go `types.Uint32.LoadObject`: `Uint32(binary.LittleEndian.Uint32(object))`. -/
def Uint32.loadObject (object : List Nat) : Nat :=
  readLE 4 object

/-- Go `types.Uint32.StoreObject`: `binary.LittleEndian.PutUint32(object, uint32(arg))`. -/
def Uint32.storeObject (v : Nat) (object : List Nat) : List Nat :=
  writeLE 4 v object

/-- Go `types.Uint64` stack shape. -/
def Uint64.valueTypes : List ValType := [.i64]

/-- Go `types.Uint64.LoadValue`: `Uint64(stack[0])`. -/
def Uint64.loadValue (stack : List Nat) : Nat :=
  stack.getD 0 0

/-- Go `types.Uint64.StoreValue`: `stack[0] = uint64(arg)`. -/
def Uint64.storeValue (v : Nat) (stack : List Nat) : List Nat :=
  stack.set 0 v

/-- Go `types.Uint64.ObjectSize`. -/
def Uint64.objectSize : Nat := 8

/-- Go `types.Uint64.LoadObject`: `Uint64(binary.LittleEndian.Uint64(object))`. -/
def Uint64.loadObject (object : List Nat) : Nat :=
  readLE 8 object

/-- Go `types.Uint64.StoreObject`: `binary.LittleEndian.PutUint64(object, uint64(arg))`. -/
def Uint64.storeObject (v : Nat) (object : List Nat) : List Nat :=
  writeLE 8 v object

/-- Go `types.Bool` stack shape. -/
def Bool'.valueTypes : List ValType := [.i32]

/-- Go `types.Bool.LoadValue`: `Bool(api.DecodeU32(stack[0]) != 0)`. -/
def Bool'.loadValue (stack : List Nat) : Bool :=
  decodeU32 (stack.getD 0 0) != 0

/-- Go `types.Bool.byte`: 1 for true, 0 for false. -/
def Bool'.byte (b : Bool) : Nat :=
  if b then 1 else 0

/-- Go `types.Bool.StoreValue`: `stack[0] = api.EncodeU32(uint32(arg.byte()))`. -/
def Bool'.storeValue (b : Bool) (stack : List Nat) : List Nat :=
  stack.set 0 (Bool'.byte b)

/-- Go `types.Bool.ObjectSize`. -/
def Bool'.objectSize : Nat := 1

/-- Go `types.Bool.LoadObject`: `Bool(object[0] != 0)`. -/
def Bool'.loadObject (object : List Nat) : Bool :=
  object.getD 0 0 != 0

/-- Go `types.Bool.StoreObject`: `object[0] = arg.byte()`. -/
def Bool'.storeObject (b : Bool) (object : List Nat) : List Nat :=
  object.set 0 (Bool'.byte b)

/-- Go `types.Float32` stack shape. -/
def Float32.valueTypes : List ValType := [.f32]

/-- Go `types.Float32.LoadValue`: `Float32(api.DecodeF32(stack[0]))`, i.e.
`math.Float32frombits(uint32(stack[0]))`; the value is its bit pattern. -/
def Float32.loadValue (stack : List Nat) : Nat :=
  decodeU32 (stack.getD 0 0)

/-- Go `types.Float32.StoreValue`: `stack[0] = api.EncodeF32(float32(arg))`,
i.e. `uint64(math.Float32bits(arg))`. -/
def Float32.storeValue (v : Nat) (stack : List Nat) : List Nat :=
  stack.set 0 v

/-- Go `types.Float32.ObjectSize`. -/
def Float32.objectSize : Nat := 4

/-- Go `types.Float32.LoadObject`:
`Float32(math.Float32frombits(binary.LittleEndian.Uint32(object)))`. -/
def Float32.loadObject (object : List Nat) : Nat :=
  readLE 4 object

/-- Go `types.Float32.StoreObject`:
`binary.LittleEndian.PutUint32(object, math.Float32bits(float32(arg)))`. -/
def Float32.storeObject (v : Nat) (object : List Nat) : List Nat :=
  writeLE 4 v object

/-- Go `types.Float64` stack shape. -/
def Float64.valueTypes : List ValType := [.f64]

/-- Go `types.Float64.LoadValue`: `Float64(api.DecodeF64(stack[0]))`; the
value is its 64-bit pattern. -/
def Float64.loadValue (stack : List Nat) : Nat :=
  stack.getD 0 0

/-- Go `types.Float64.StoreValue`: `stack[0] = api.EncodeF64(float64(arg))`. -/
def Float64.storeValue (v : Nat) (stack : List Nat) : List Nat :=
  stack.set 0 v

/-- Go `types.Float64.ObjectSize`. -/
def Float64.objectSize : Nat := 8

/-- Go `types.Float64.LoadObject`:
`Float64(math.Float64frombits(binary.LittleEndian.Uint64(object)))`. -/
def Float64.loadObject (object : List Nat) : Nat :=
  readLE 8 object

/-- Go `types.Float64.StoreObject`:
`binary.LittleEndian.PutUint64(object, math.Float64bits(float64(arg)))`. -/
def Float64.storeObject (v : Nat) (object : List Nat) : List Nat :=
  writeLE 8 v object

/-- Go `types.Duration` stack shape. -/
def Duration.valueTypes : List ValType := [.i64]

/-- Go `types.Duration.LoadValue`: `Duration(stack[0])` (uint64 reinterpreted
as a signed 64-bit tick count). -/
def Duration.loadValue (stack : List Nat) : Int :=
  sintCast 64 (stack.getD 0 0)

/-- Go `types.Duration.StoreValue`: `stack[0] = uint64(arg)`. -/
def Duration.storeValue (v : Int) (stack : List Nat) : List Nat :=
  stack.set 0 (intToBits 64 v)

/-- Go `types.Duration.ObjectSize`. -/
def Duration.objectSize : Nat := 8

/-- Go `types.Duration.LoadObject`: `Duration(binary.LittleEndian.Uint64(object))`. -/
def Duration.loadObject (object : List Nat) : Int :=
  sintCast 64 (readLE 8 object)

/-- Go `types.Duration.StoreObject`: `binary.LittleEndian.PutUint64(object, uint64(arg))`. -/
def Duration.storeObject (v : Int) (object : List Nat) : List Nat :=
  writeLE 8 (intToBits 64 v) object

/-- Go `types.None` stack shape: the empty sequence. -/
def None'.valueTypes : List ValType := []

/-- Go `types.None.LoadValue` returns the unit value. -/
def None'.loadValue (_ : List Nat) : Unit := ()

/-- Go `types.None.StoreValue` writes nothing. -/
def None'.storeValue (_ : Unit) (stack : List Nat) : List Nat := stack

/-- Go `types.None.ObjectSize`. -/
def None'.objectSize : Nat := 0

/-- Go `types.None.LoadObject` returns the unit value. -/
def None'.loadObject (_ : List Nat) : Unit := ()

/-- Go `types.None.StoreObject` writes nothing. -/
def None'.storeObject (_ : Unit) (object : List Nat) : List Nat := object

/-- A two's-complement reinterpretation fixes every value already inside
the signed range of the width. -/
theorem sintCast_eq_of_range (bits : Nat) (hb : 1 ≤ bits) (x : Int)
    (h1 : -(2 ^ (bits - 1)) ≤ x) (h2 : x < 2 ^ (bits - 1)) :
    sintCast bits x = x := by
  obtain ⟨k, rfl⟩ : ∃ k, bits = k + 1 := ⟨bits - 1, by omega⟩
  simp only [Nat.add_sub_cancel] at h1 h2
  have hH : (0 : Int) < 2 ^ k := by positivity
  have hpow : (2 : Int) ^ (k + 1) = 2 ^ k + 2 ^ k := by ring
  unfold sintCast
  simp only [Nat.add_sub_cancel]
  have hmod : x % (2 : Int) ^ (k + 1) = x ∨
      x % (2 : Int) ^ (k + 1) = x + 2 ^ (k + 1) := by
    rcases le_or_lt 0 x with hx | hx
    · exact Or.inl (Int.emod_eq_of_lt hx (by omega))
    · refine Or.inr ?_
      have h0 : (x + 2 ^ (k + 1)) % (2 : Int) ^ (k + 1) = x % 2 ^ (k + 1) := by
        conv_lhs => rw [show x + (2 : Int) ^ (k + 1) = x + 2 ^ (k + 1) * 1 by ring]
        exact Int.add_mul_emod_self_left x (2 ^ (k + 1)) 1
      rw [← h0]
      exact Int.emod_eq_of_lt (by omega) (by omega)
  rcases hmod with h | h <;> split_ifs <;> omega

/-- Truncating to the low `bits` bits and reinterpreting as signed recovers
every value of the signed range: the encode/decode law for the integer
stack codecs. -/
theorem sintCast_intToBits_eq (bits : Nat) (hb : 1 ≤ bits) (x : Int)
    (h1 : -(2 ^ (bits - 1)) ≤ x) (h2 : x < 2 ^ (bits - 1)) :
    sintCast bits ((intToBits bits x : Nat) : Int) = x := by
  have hM : (0 : Int) < 2 ^ bits := by positivity
  have hcast : ((intToBits bits x : Nat) : Int) = x % 2 ^ bits := by
    unfold intToBits
    exact Int.toNat_of_nonneg (Int.emod_nonneg x (ne_of_gt hM))
  rw [hcast]
  have hself : sintCast bits (x % 2 ^ bits) = sintCast bits x := by
    unfold sintCast
    rw [Int.emod_emod_of_dvd x dvd_rfl]
  rw [hself]
  exact sintCast_eq_of_range bits hb x h1 h2

/-- The low-bits truncation always lies below `2 ^ bits`. -/
theorem intToBits_lt (bits : Nat) (x : Int) : intToBits bits x < 2 ^ bits := by
  unfold intToBits
  have h1 : 0 ≤ x % (2 : Int) ^ bits := Int.emod_nonneg x (by positivity)
  have h2 : x % (2 : Int) ^ bits < (2 : Int) ^ bits := Int.emod_lt_of_pos x (by positivity)
  have h3 : ((2 : Int) ^ bits) = ((2 ^ bits : Nat) : Int) := by push_cast; ring
  omega

/-- Little-endian write followed by read recovers the value, for values
fitting in the written width. -/
theorem readLE_writeLE (n : Nat) (v : Nat) (object : List Nat)
    (hlen : n ≤ object.length) (hv : v < 256 ^ n) :
    readLE n (writeLE n v object) = v := by
  induction n generalizing v object with
  | zero => simp [readLE, writeLE]; omega
  | succ n ih =>
    match object with
    | [] => simp at hlen
    | b :: rest =>
      simp only [writeLE, readLE]
      have hrec : readLE n (writeLE n (v / 256) rest) = v / 256 := by
        refine ih (v / 256) rest (by simpa using hlen) ?_
        have : 256 ^ (n + 1) = 256 ^ n * 256 := by ring
        omega
      rw [hrec]
      omega

/-- Go `Int8` round-trip through the stack and through a byte record. -/
theorem int8_roundtrip (v : Int) (h1 : -(2 ^ 7) ≤ v) (h2 : v < 2 ^ 7) :
    Int8.loadValue (Int8.storeValue v (List.replicate Int8.valueTypes.length 0)) = v ∧
    Int8.loadObject (Int8.storeObject v (List.replicate Int8.objectSize 0)) = v := by
  constructor
  · simp only [Int8.loadValue, Int8.storeValue, Int8.valueTypes, decodeI32, encodeI32,
      List.length_cons, List.length_nil, List.replicate, List.set, List.getD_cons_zero]
    rw [sintCast_intToBits_eq 32 (by omega) v (by norm_num; omega) (by norm_num; omega)]
    exact sintCast_eq_of_range 8 (by omega) v (by norm_num at h1 ⊢; omega) (by norm_num at h2 ⊢; omega)
  · simp only [Int8.loadObject, Int8.storeObject, Int8.objectSize,
      List.replicate, List.set, List.getD_cons_zero]
    exact sintCast_intToBits_eq 8 (by omega) v h1 h2

/-- Go `Int16` round-trip through the stack and through a byte record. -/
theorem int16_roundtrip (v : Int) (h1 : -(2 ^ 15) ≤ v) (h2 : v < 2 ^ 15) :
    Int16.loadValue (Int16.storeValue v (List.replicate Int16.valueTypes.length 0)) = v ∧
    Int16.loadObject (Int16.storeObject v (List.replicate Int16.objectSize 0)) = v := by
  constructor
  · simp only [Int16.loadValue, Int16.storeValue, Int16.valueTypes, decodeI32, encodeI32,
      List.length_cons, List.length_nil, List.replicate, List.set, List.getD_cons_zero]
    rw [sintCast_intToBits_eq 32 (by omega) v (by norm_num; omega) (by norm_num; omega)]
    exact sintCast_eq_of_range 16 (by omega) v (by norm_num at h1 ⊢; omega)
      (by norm_num at h2 ⊢; omega)
  · simp only [Int16.loadObject, Int16.storeObject, Int16.objectSize, List.replicate]
    rw [readLE_writeLE 2 _ _ (by simp) (by have := intToBits_lt 16 v; norm_num at this ⊢; omega)]
    exact sintCast_intToBits_eq 16 (by omega) v h1 h2

/-- Go `Int32` round-trip through the stack and through a byte record. -/
theorem int32_roundtrip (v : Int) (h1 : -(2 ^ 31) ≤ v) (h2 : v < 2 ^ 31) :
    Int32.loadValue (Int32.storeValue v (List.replicate Int32.valueTypes.length 0)) = v ∧
    Int32.loadObject (Int32.storeObject v (List.replicate Int32.objectSize 0)) = v := by
  constructor
  · simp only [Int32.loadValue, Int32.storeValue, Int32.valueTypes, decodeI32, encodeI32,
      List.length_cons, List.length_nil, List.replicate, List.set, List.getD_cons_zero]
    exact sintCast_intToBits_eq 32 (by omega) v (by norm_num; omega) (by norm_num; omega)
  · simp only [Int32.loadObject, Int32.storeObject, Int32.objectSize, List.replicate]
    rw [readLE_writeLE 4 _ _ (by simp) (by have := intToBits_lt 32 v; norm_num at this ⊢; omega)]
    exact sintCast_intToBits_eq 32 (by omega) v (by norm_num; omega) (by norm_num; omega)

/-- Go `Int64` round-trip through the stack and through a byte record. -/
theorem int64_roundtrip (v : Int) (h1 : -(2 ^ 63) ≤ v) (h2 : v < 2 ^ 63) :
    Int64.loadValue (Int64.storeValue v (List.replicate Int64.valueTypes.length 0)) = v ∧
    Int64.loadObject (Int64.storeObject v (List.replicate Int64.objectSize 0)) = v := by
  constructor
  · simp only [Int64.loadValue, Int64.storeValue, Int64.valueTypes,
      List.length_cons, List.length_nil, List.replicate, List.set, List.getD_cons_zero]
    exact sintCast_intToBits_eq 64 (by omega) v (by norm_num; omega) (by norm_num; omega)
  · simp only [Int64.loadObject, Int64.storeObject, Int64.objectSize, List.replicate]
    rw [readLE_writeLE 8 _ _ (by simp) (by have := intToBits_lt 64 v; norm_num at this ⊢; omega)]
    exact sintCast_intToBits_eq 64 (by omega) v (by norm_num; omega) (by norm_num; omega)

/-- Go `Uint8` round-trip through the stack and through a byte record. -/
theorem uint8_roundtrip (v : Nat) (h : v < 2 ^ 8) :
    Uint8.loadValue (Uint8.storeValue v (List.replicate Uint8.valueTypes.length 0)) = v ∧
    Uint8.loadObject (Uint8.storeObject v (List.replicate Uint8.objectSize 0)) = v := by
  constructor
  · simp only [Uint8.loadValue, Uint8.storeValue, Uint8.valueTypes, decodeU32,
      List.length_cons, List.length_nil, List.replicate, List.set, List.getD_cons_zero]
    omega
  · simp [Uint8.loadObject, Uint8.storeObject, Uint8.objectSize]

/-- Go `Uint16` round-trip through the stack and through a byte record. -/
theorem uint16_roundtrip (v : Nat) (h : v < 2 ^ 16) :
    Uint16.loadValue (Uint16.storeValue v (List.replicate Uint16.valueTypes.length 0)) = v ∧
    Uint16.loadObject (Uint16.storeObject v (List.replicate Uint16.objectSize 0)) = v := by
  constructor
  · simp only [Uint16.loadValue, Uint16.storeValue, Uint16.valueTypes, decodeU32,
      List.length_cons, List.length_nil, List.replicate, List.set, List.getD_cons_zero]
    omega
  · simp only [Uint16.loadObject, Uint16.storeObject, Uint16.objectSize, List.replicate]
    exact readLE_writeLE 2 v _ (by simp) (by norm_num at h ⊢; omega)

/-- Go `Uint32` round-trip through the stack and through a byte record. -/
theorem uint32_roundtrip (v : Nat) (h : v < 2 ^ 32) :
    Uint32.loadValue (Uint32.storeValue v (List.replicate Uint32.valueTypes.length 0)) = v ∧
    Uint32.loadObject (Uint32.storeObject v (List.replicate Uint32.objectSize 0)) = v := by
  constructor
  · simp only [Uint32.loadValue, Uint32.storeValue, Uint32.valueTypes, decodeU32,
      List.length_cons, List.length_nil, List.replicate, List.set, List.getD_cons_zero]
    omega
  · simp only [Uint32.loadObject, Uint32.storeObject, Uint32.objectSize, List.replicate]
    exact readLE_writeLE 4 v _ (by simp) (by norm_num at h ⊢; omega)

/-- Go `Uint64` round-trip through the stack and through a byte record. -/
theorem uint64_roundtrip (v : Nat) (h : v < 2 ^ 64) :
    Uint64.loadValue (Uint64.storeValue v (List.replicate Uint64.valueTypes.length 0)) = v ∧
    Uint64.loadObject (Uint64.storeObject v (List.replicate Uint64.objectSize 0)) = v := by
  constructor
  · simp [Uint64.loadValue, Uint64.storeValue, Uint64.valueTypes]
  · simp only [Uint64.loadObject, Uint64.storeObject, Uint64.objectSize, List.replicate]
    exact readLE_writeLE 8 v _ (by simp) (by norm_num at h ⊢; omega)

/-- Go `Bool` round-trip through the stack and through a byte record. -/
theorem bool_roundtrip (b : Bool) :
    Bool'.loadValue (Bool'.storeValue b (List.replicate Bool'.valueTypes.length 0)) = b ∧
    Bool'.loadObject (Bool'.storeObject b (List.replicate Bool'.objectSize 0)) = b := by
  cases b <;> constructor <;> rfl

/-- Go `Float32` round-trip through the stack and through a byte record,
on IEEE-754 bit patterns. -/
theorem float32_roundtrip (v : Nat) (h : v < 2 ^ 32) :
    Float32.loadValue (Float32.storeValue v (List.replicate Float32.valueTypes.length 0)) = v ∧
    Float32.loadObject (Float32.storeObject v (List.replicate Float32.objectSize 0)) = v := by
  constructor
  · simp only [Float32.loadValue, Float32.storeValue, Float32.valueTypes, decodeU32,
      List.length_cons, List.length_nil, List.replicate, List.set, List.getD_cons_zero]
    omega
  · simp only [Float32.loadObject, Float32.storeObject, Float32.objectSize, List.replicate]
    exact readLE_writeLE 4 v _ (by simp) (by norm_num at h ⊢; omega)

/-- Go `Float64` round-trip through the stack and through a byte record,
on IEEE-754 bit patterns. -/
theorem float64_roundtrip (v : Nat) (h : v < 2 ^ 64) :
    Float64.loadValue (Float64.storeValue v (List.replicate Float64.valueTypes.length 0)) = v ∧
    Float64.loadObject (Float64.storeObject v (List.replicate Float64.objectSize 0)) = v := by
  constructor
  · simp [Float64.loadValue, Float64.storeValue, Float64.valueTypes]
  · simp only [Float64.loadObject, Float64.storeObject, Float64.objectSize, List.replicate]
    exact readLE_writeLE 8 v _ (by simp) (by norm_num at h ⊢; omega)

/-- Go `Duration` round-trip through the stack and through a byte record. -/
theorem duration_roundtrip (v : Int) (h1 : -(2 ^ 63) ≤ v) (h2 : v < 2 ^ 63) :
    Duration.loadValue (Duration.storeValue v (List.replicate Duration.valueTypes.length 0)) = v ∧
    Duration.loadObject (Duration.storeObject v (List.replicate Duration.objectSize 0)) = v := by
  constructor
  · simp only [Duration.loadValue, Duration.storeValue, Duration.valueTypes,
      List.length_cons, List.length_nil, List.replicate, List.set, List.getD_cons_zero]
    exact sintCast_intToBits_eq 64 (by omega) v (by norm_num; omega) (by norm_num; omega)
  · simp only [Duration.loadObject, Duration.storeObject, Duration.objectSize, List.replicate]
    rw [readLE_writeLE 8 _ _ (by simp) (by have := intToBits_lt 64 v; norm_num at this ⊢; omega)]
    exact sintCast_intToBits_eq 64 (by omega) v (by norm_num; omega) (by norm_num; omega)

/-- Go `None` round-trip through the stack and through a byte record. -/
theorem none_roundtrip (v : Unit) :
    None'.loadValue (None'.storeValue v (List.replicate None'.valueTypes.length 0)) = v ∧
    None'.loadObject (None'.storeObject v (List.replicate None'.objectSize 0)) = v :=
  ⟨rfl, rfl⟩

/-- C1: for every primitive scalar type (Int8, Int16, Int32, Int64, Uint8,
Uint16, Uint32, Uint64, Float32, Float64, Bool, Duration, None) and every
representable value `v`, storing `v` with `StoreValue` into a fresh stack
window of `len(ValueTypes())` words and then loading with `LoadValue`
returns `v` bit-for-bit; likewise `StoreObject` into a buffer of
`ObjectSize()` bytes followed by `LoadObject` returns `v`.  (Float values
are represented by their IEEE-754 bit patterns.) -/
theorem c1_scalar_codec_roundtrip :
    (∀ v : Int, -(2 ^ 7) ≤ v → v < 2 ^ 7 →
      Int8.loadValue (Int8.storeValue v (List.replicate Int8.valueTypes.length 0)) = v ∧
      Int8.loadObject (Int8.storeObject v (List.replicate Int8.objectSize 0)) = v) ∧
    (∀ v : Int, -(2 ^ 15) ≤ v → v < 2 ^ 15 →
      Int16.loadValue (Int16.storeValue v (List.replicate Int16.valueTypes.length 0)) = v ∧
      Int16.loadObject (Int16.storeObject v (List.replicate Int16.objectSize 0)) = v) ∧
    (∀ v : Int, -(2 ^ 31) ≤ v → v < 2 ^ 31 →
      Int32.loadValue (Int32.storeValue v (List.replicate Int32.valueTypes.length 0)) = v ∧
      Int32.loadObject (Int32.storeObject v (List.replicate Int32.objectSize 0)) = v) ∧
    (∀ v : Int, -(2 ^ 63) ≤ v → v < 2 ^ 63 →
      Int64.loadValue (Int64.storeValue v (List.replicate Int64.valueTypes.length 0)) = v ∧
      Int64.loadObject (Int64.storeObject v (List.replicate Int64.objectSize 0)) = v) ∧
    (∀ v : Nat, v < 2 ^ 8 →
      Uint8.loadValue (Uint8.storeValue v (List.replicate Uint8.valueTypes.length 0)) = v ∧
      Uint8.loadObject (Uint8.storeObject v (List.replicate Uint8.objectSize 0)) = v) ∧
    (∀ v : Nat, v < 2 ^ 16 →
      Uint16.loadValue (Uint16.storeValue v (List.replicate Uint16.valueTypes.length 0)) = v ∧
      Uint16.loadObject (Uint16.storeObject v (List.replicate Uint16.objectSize 0)) = v) ∧
    (∀ v : Nat, v < 2 ^ 32 →
      Uint32.loadValue (Uint32.storeValue v (List.replicate Uint32.valueTypes.length 0)) = v ∧
      Uint32.loadObject (Uint32.storeObject v (List.replicate Uint32.objectSize 0)) = v) ∧
    (∀ v : Nat, v < 2 ^ 64 →
      Uint64.loadValue (Uint64.storeValue v (List.replicate Uint64.valueTypes.length 0)) = v ∧
      Uint64.loadObject (Uint64.storeObject v (List.replicate Uint64.objectSize 0)) = v) ∧
    (∀ v : Nat, v < 2 ^ 32 →
      Float32.loadValue (Float32.storeValue v (List.replicate Float32.valueTypes.length 0)) = v ∧
      Float32.loadObject (Float32.storeObject v (List.replicate Float32.objectSize 0)) = v) ∧
    (∀ v : Nat, v < 2 ^ 64 →
      Float64.loadValue (Float64.storeValue v (List.replicate Float64.valueTypes.length 0)) = v ∧
      Float64.loadObject (Float64.storeObject v (List.replicate Float64.objectSize 0)) = v) ∧
    (∀ b : Bool,
      Bool'.loadValue (Bool'.storeValue b (List.replicate Bool'.valueTypes.length 0)) = b ∧
      Bool'.loadObject (Bool'.storeObject b (List.replicate Bool'.objectSize 0)) = b) ∧
    (∀ v : Int, -(2 ^ 63) ≤ v → v < 2 ^ 63 →
      Duration.loadValue (Duration.storeValue v (List.replicate Duration.valueTypes.length 0)) = v ∧
      Duration.loadObject (Duration.storeObject v (List.replicate Duration.objectSize 0)) = v) ∧
    (∀ v : Unit,
      None'.loadValue (None'.storeValue v (List.replicate None'.valueTypes.length 0)) = v ∧
      None'.loadObject (None'.storeObject v (List.replicate None'.objectSize 0)) = v) :=
  ⟨int8_roundtrip, int16_roundtrip, int32_roundtrip, int64_roundtrip,
    uint8_roundtrip, uint16_roundtrip, uint32_roundtrip, uint64_roundtrip,
    float32_roundtrip, float64_roundtrip, bool_roundtrip, duration_roundtrip,
    none_roundtrip⟩

/-- Witness for C1: the Int8 round-trip at the concrete value -3. -/
theorem c1_scalar_codec_roundtrip_witness :
    Int8.loadValue (Int8.storeValue (-3) (List.replicate Int8.valueTypes.length 0)) = -3 :=
  (c1_scalar_codec_roundtrip.1 (-3) (by decide) (by decide)).1

/-- Go error values as seen by `types.AsErrno`:
`errno c` is a `types.Errno` (it has an `Errno() int32` method and no
`Unwrap`); `sysErrno c` is a `syscall.Errno` (no `Errno` method, no
`Unwrap`); `plain msg` is an `errors.New`-style error (no `Errno` method,
no `Unwrap`); `wrapped cause` is a `fmt.Errorf("%w", ...)`-style wrapper
(its `Unwrap` returns the cause, and it has no `Errno` method itself). -/
inductive GoErr where
  | errno (code : Int)
  | sysErrno (code : Int)
  | plain (msg : String)
  | wrapped (cause : GoErr)
deriving DecidableEq

/-- Go `errors.Unwrap`: returns the wrapped cause when the error has an
`Unwrap() error` method, and nil otherwise. -/
def errorsUnwrap : GoErr → Option GoErr
  | .wrapped cause => some cause
  | _ => none

/-- Whether the error value has an `Errno() int32` method. -/
def hasErrnoMethod : GoErr → Bool
  | .errno _ => true
  | _ => false

/-- Whether the error value is a `syscall.Errno`. -/
def isSysErrno : GoErr → Bool
  | .sysErrno _ => true
  | _ => false

/-- The loop of Go `types.AsErrno`: each iteration switches on
`errors.Unwrap(err)` — nil yields the unknown sentinel -1, a value with an
`Errno() int32` method yields that code, a `syscall.Errno` yields its
code, and anything else continues with the unwrapped cause.  Since
`errorsUnwrap` returns `some` exactly on `wrapped`, the loop compiles to
structural recursion on the wrapped cause. -/
def asErrnoLoop : GoErr → Int
  | .wrapped cause =>
    match cause with
    | .errno c => c
    | .sysErrno c => c
    | _ => asErrnoLoop cause
  | _ => -1

/-- Go `types.AsErrno`: a nil error is code 0, otherwise the unwrap loop
runs. -/
def AsErrno : Option GoErr → Int
  | none => 0
  | some err => asErrnoLoop err

/-- Go `types.makeErrno`: code 0 becomes the nil error, any other code
becomes `Errno(code)`. -/
def makeErrno (errno : Int) : Option GoErr :=
  if errno = 0 then none else some (.errno errno)

/-- The interface of a scalar `types.ParamResult` implementation, as used
by `Optional`: its stack shape and its stack codec.  Scalar codecs ignore
their memory argument, so it is dropped here. -/
structure ScalarCodec (α : Type) where
  valueTypes : List ValType
  loadValue : List Nat → α
  storeValue : α → List Nat → List Nat

/-- Go `types.Optional[T]`: a result value of type T together with an
optional error. -/
structure OptionalVal (α : Type) where
  res : α
  err : Option GoErr
deriving DecidableEq

/-- Go `types.Res`: an optional holding a value (nil error). -/
def Res {α : Type} (v : α) : OptionalVal α :=
  { res := v, err := none }

/-- Go `types.Err`: an optional holding an error; `res` stays the zero
value of T, which the embedding passes explicitly. -/
def Err {α : Type} (zeroVal : α) (e : GoErr) : OptionalVal α :=
  { res := zeroVal, err := some e }

/-- Go `types.Optional.ValueTypes`: `append(opt.res.ValueTypes(), api.ValueTypeI32)`. -/
def optionalValueTypes {α : Type} (c : ScalarCodec α) : List ValType :=
  c.valueTypes ++ [.i32]

/-- Go `types.Optional.LoadValue`:
`n := len(opt.res.ValueTypes()); opt.res = opt.res.LoadValue(memory, stack[:n:n]);
opt.err = makeErrno(api.DecodeI32(stack[n]))`.  Note that the delegation to
`T.LoadValue` is unconditional: it happens before the error word is read. -/
def optionalLoadValue {α : Type} (c : ScalarCodec α) (stack : List Nat) : OptionalVal α :=
  let n := c.valueTypes.length
  { res := c.loadValue (stack.take n),
    err := makeErrno (decodeI32 (stack.getD n 0)) }

/-- The zeroing loop `for i := range stack[:n] { stack[i] = 0 }` of
`Optional.StoreValue`. -/
def zeroWindow (stack : List Nat) (n : Nat) : List Nat :=
  (stack.take n).map (fun _ => 0) ++ stack.drop n

/-- Go `types.Optional.StoreValue`: on error, zero the leading `n` words
and store `api.EncodeI32(int32(AsErrno(opt.err)))` at index `n`; on
success, delegate to `T.StoreValue` on the leading sub-window `stack[:n:n]`
and store 0 at index `n`. -/
def optionalStoreValue {α : Type} (c : ScalarCodec α) (opt : OptionalVal α)
    (stack : List Nat) : List Nat :=
  let n := c.valueTypes.length
  match opt.err with
  | some e => (zeroWindow stack n).set n (encodeI32 (AsErrno (some e)))
  | none => (c.storeValue opt.res (stack.take n) ++ stack.drop n).set n 0

/-- The `types.Int32` codec packaged for `Optional`. -/
def int32Codec : ScalarCodec Int :=
  { valueTypes := Int32.valueTypes
    loadValue := Int32.loadValue
    storeValue := Int32.storeValue }

/-- The `types.Bool` codec packaged for `Optional`. -/
def boolCodec : ScalarCodec Bool :=
  { valueTypes := Bool'.valueTypes
    loadValue := Bool'.loadValue
    storeValue := Bool'.storeValue }

/-- Reading an index just overwritten by `set` yields the new value. -/
theorem getD_set_self (l : List Nat) (i a : Nat) (h : i < l.length) :
    (l.set i a).getD i 0 = a := by
  induction l generalizing i with
  | nil => simp at h
  | cons b rest ih =>
    match i with
    | 0 => rfl
    | j + 1 => exact ih j (by simpa using h)

/-- Reading inside the left part of an append stays in the left part. -/
theorem getD_append_left (l1 l2 : List Nat) (i : Nat) (h : i < l1.length) :
    ((l1 ++ l2) : List Nat).getD i 0 = l1.getD i 0 := by
  induction l1 generalizing i with
  | nil => simp at h
  | cons b rest ih =>
    match i with
    | 0 => rfl
    | j + 1 => exact ih j (by simpa using h)

/-- `set` at or beyond the taken prefix does not change the prefix. -/
theorem take_set_of_le (l : List Nat) (i a n : Nat) (h : n ≤ i) :
    (l.set i a).take n = l.take n := by
  induction l generalizing i n with
  | nil => simp
  | cons b rest ih =>
    match i, n with
    | _, 0 => simp
    | 0, _ + 1 => omega
    | j + 1, m + 1 => simp [List.set, List.take, ih j m (by omega)]

/-- A list of zeros reads zero everywhere (with default zero). -/
theorem getD_replicate_zero (n i : Nat) : (List.replicate n (0 : Nat)).getD i 0 = 0 := by
  induction n generalizing i with
  | zero => simp [List.getD]
  | succ m ih =>
    match i with
    | 0 => rfl
    | j + 1 => exact ih j

/-- The zeroing loop preserves the stack length. -/
theorem zeroWindow_length (stack : List Nat) (n : Nat) :
    (zeroWindow stack n).length = stack.length := by
  simp [zeroWindow]
  omega

/-- The zeroing loop writes zeros over the leading window. -/
theorem getD_zeroWindow (stack : List Nat) (n i : Nat) (h1 : i < n) (h2 : i < stack.length) :
    (zeroWindow stack n).getD i 0 = 0 := by
  unfold zeroWindow
  rw [getD_append_left _ _ i (by simp; omega)]
  rw [show (stack.take n).map (fun _ => 0) = List.replicate (stack.take n).length 0 from
    List.map_const _ 0]
  exact getD_replicate_zero _ i

/-- C2 counterexample: two stacks that agree on the non-zero trailing
error word 7 but hold different leading payload words decode, through
`Optional[Int32].LoadValue`, to different results — the payload word is
read and kept even though the code is non-zero. -/
theorem c2_payload_read_counterexample :
    decodeI32 ((7 : Nat)) ≠ 0 ∧
    optionalLoadValue int32Codec [1, 7] ≠ optionalLoadValue int32Codec [2, 7] := by
  constructor
  · decide
  · decide

/-- C2 amended: `Optional` decode delegates to `T.LoadValue` over the
leading sub-window unconditionally (before the trailing word is
inspected), and reads the trailing word only to determine the error code;
hence two stacks that agree on the trailing word (in particular on a
non-zero one) decode to optionals carrying the same error, while their
payload components are each read from their own leading sub-window and may
differ. -/
theorem c2_optional_decode_order {α : Type} (c : ScalarCodec α) (s1 s2 : List Nat)
    (h : s1.getD c.valueTypes.length 0 = s2.getD c.valueTypes.length 0) :
    (optionalLoadValue c s1).err = (optionalLoadValue c s2).err ∧
    (optionalLoadValue c s1).res = c.loadValue (s1.take c.valueTypes.length) := by
  constructor
  · simp only [optionalLoadValue]
    rw [h]
  · simp only [optionalLoadValue]

/-- Witness for the amended C2, at the stacks of the counterexample. -/
theorem c2_optional_decode_order_witness :
    (optionalLoadValue int32Codec [1, 7]).err = (optionalLoadValue int32Codec [2, 7]).err ∧
    (optionalLoadValue int32Codec [1, 7]).res
      = int32Codec.loadValue (([1, 7] : List Nat).take int32Codec.valueTypes.length) :=
  c2_optional_decode_order int32Codec [1, 7] [2, 7] (by decide)

/-- `set` at one index does not change reads at another index. -/
theorem getD_set_ne (l : List Nat) (i j a : Nat) (h : i ≠ j) :
    (l.set i a).getD j 0 = l.getD j 0 := by
  induction l generalizing i j with
  | nil => simp
  | cons b rest ih =>
    match i, j with
    | 0, 0 => omega
    | 0, _ + 1 => rfl
    | _ + 1, 0 => rfl
    | i' + 1, j' + 1 => exact ih i' j' (by omega)

/-- Taking exactly the length of the left part of an append yields it. -/
theorem take_append_length (l1 l2 : List Nat) (n : Nat) (h : l1.length = n) :
    ((l1 ++ l2) : List Nat).take n = l1 := by
  subst h
  exact List.take_left _ _

/-- Two optionals with equal components are equal. -/
theorem optionalVal_ext {α : Type} (x y : OptionalVal α)
    (h1 : x.res = y.res) (h2 : x.err = y.err) : x = y := by
  cases x
  cases y
  simp_all

/-- C3: for a scalar ParamResult codec (length-preserving store, value
round-trip on its own window), `Optional` round-trips: decoding the stack
produced by encoding `Res v` yields `Res v`, and the encoding of `Res v`
has a zero trailing code word; encoding an error optional zeroes the
leading payload words, writes `encodeI32(AsErrno(err))` into the trailing
word, and decoding it yields an optional carrying that same (non-zero)
code.  The bounds on `AsErrno` reflect that Go `Errno` is an `int32`. -/
theorem c3_optional_roundtrip {α : Type} (c : ScalarCodec α)
    (hlen : ∀ v w, (c.storeValue v w).length = w.length)
    (stack : List Nat) (hstack : stack.length = c.valueTypes.length + 1) :
    (∀ v : α,
      (∀ w, w.length = c.valueTypes.length → c.loadValue (c.storeValue v w) = v) →
      optionalLoadValue c (optionalStoreValue c (Res v) stack) = Res v ∧
      (optionalStoreValue c (Res v) stack).getD c.valueTypes.length 0 = 0) ∧
    (∀ z : α, ∀ e : GoErr,
      AsErrno (some e) ≠ 0 → -(2 ^ 31) ≤ AsErrno (some e) → AsErrno (some e) < 2 ^ 31 →
      (∀ i, i < c.valueTypes.length →
        (optionalStoreValue c (Err z e) stack).getD i 0 = 0) ∧
      (optionalStoreValue c (Err z e) stack).getD c.valueTypes.length 0
        = encodeI32 (AsErrno (some e)) ∧
      (optionalLoadValue c (optionalStoreValue c (Err z e) stack)).err
        = some (GoErr.errno (AsErrno (some e)))) := by
  obtain ⟨n, hn⟩ : ∃ m, c.valueTypes.length = m := ⟨_, rfl⟩
  rw [hn] at hstack
  rw [hn]
  constructor
  · intro v hv
    have htake : (stack.take n).length = n := by
      simp [List.length_take, hstack]
    have hP : (c.storeValue v (stack.take n)).length = n := by
      rw [hlen v (stack.take n)]; exact htake
    have hPD : (c.storeValue v (stack.take n) ++ stack.drop n).length = n + 1 := by
      simp [hP, hstack]
    have hset : ((c.storeValue v (stack.take n) ++ stack.drop n).set n 0).getD n 0 = 0 :=
      getD_set_self _ n 0 (by omega)
    have htake2 :
        ((c.storeValue v (stack.take n) ++ stack.drop n).set n 0).take n
          = c.storeValue v (stack.take n) := by
      rw [take_set_of_le _ n 0 n (le_refl n)]
      exact take_append_length _ _ n hP
    constructor
    · refine optionalVal_ext _ _ ?_ ?_
      · simp only [optionalLoadValue, optionalStoreValue, Res]
        rw [hn, htake2]
        exact hv (stack.take n) htake
      · simp only [optionalLoadValue, optionalStoreValue, Res]
        rw [hn, hset]
        norm_num [decodeI32, sintCast, makeErrno]
    · simp only [optionalStoreValue, Res]
      rw [hn]
      exact hset
  · intro z e he h1 h2
    have hzl : (zeroWindow stack n).length = stack.length := zeroWindow_length stack n
    refine ⟨?_, ?_, ?_⟩
    · intro i hi
      simp only [optionalStoreValue, Err]
      rw [hn, getD_set_ne _ n i _ (by omega)]
      exact getD_zeroWindow stack n i hi (by omega)
    · simp only [optionalStoreValue, Err]
      rw [hn]
      exact getD_set_self _ n _ (by omega)
    · simp only [optionalLoadValue, optionalStoreValue, Err]
      rw [hn, getD_set_self _ n _ (by omega)]
      rw [show decodeI32 (encodeI32 (AsErrno (some e))) = AsErrno (some e) from
        sintCast_intToBits_eq 32 (by omega) _ (by norm_num; omega) (by norm_num; omega)]
      simp [makeErrno, he]

/-- Witness for C3 at the Bool codec: a successful `Res true` round-trips
through a 2-word stack, and an error optional carrying `Errno(5)` decodes
to the code that `AsErrno` assigned to it. -/
theorem c3_optional_roundtrip_witness :
    optionalLoadValue boolCodec (optionalStoreValue boolCodec (Res true) [5, 5]) = Res true ∧
    (optionalLoadValue boolCodec
        (optionalStoreValue boolCodec (Err false (GoErr.errno 5)) [5, 5])).err
      = some (GoErr.errno (AsErrno (some (GoErr.errno 5)))) := by
  have hlen : ∀ (v : Bool) w, (boolCodec.storeValue v w).length = w.length := by
    intro v w
    simp [boolCodec, Bool'.storeValue]
  have hstack : ([5, 5] : List Nat).length = boolCodec.valueTypes.length + 1 := by decide
  refine ⟨((c3_optional_roundtrip boolCodec hlen [5, 5] hstack).1 true ?_).1,
    ((c3_optional_roundtrip boolCodec hlen [5, 5] hstack).2 false (GoErr.errno 5)
      (by decide) (by decide) (by decide)).2.2⟩
  intro w hw
  match w, hw with
  | [a], _ => simp [boolCodec, Bool'.loadValue, Bool'.storeValue, Bool'.byte, decodeU32]

/-- C4 counterexample: an error value that itself has an `Errno() int32`
method but wraps no cause — `types.Errno(5)` — is mapped by `AsErrno` to
the unknown sentinel -1, not to its own code 5, because the loop switches
on `errors.Unwrap(err)` rather than on `err` itself. -/
theorem c4_direct_errno_counterexample :
    AsErrno (some (GoErr.errno 5)) = -1 ∧ ((-1 : Int) ≠ 5) :=
  ⟨rfl, by decide⟩

/-- C4 amended: `AsErrno(nil) = 0`; otherwise the loop inspects
`errors.Unwrap(err)` at each step — when the unwrapped cause provides an
`Errno() int32` method its code is returned, when it is a `syscall.Errno`
its code is returned, when there is no wrapped cause the unknown sentinel
-1 (distinct from the no-error 0) is returned, and otherwise the loop
recurses on the cause.  In particular an error that itself has an
`Errno() int32` method but wraps nothing yields -1, while an error
wrapping it yields its code. -/
theorem c4_asErrno_unwrap_chain :
    AsErrno none = 0 ∧
    ((-1 : Int) ≠ 0) ∧
    (∀ c : Int, AsErrno (some (GoErr.wrapped (GoErr.errno c))) = c) ∧
    (∀ c : Int, AsErrno (some (GoErr.wrapped (GoErr.sysErrno c))) = c) ∧
    (∀ e : GoErr, errorsUnwrap e = none → AsErrno (some e) = -1) ∧
    (∀ e : GoErr, hasErrnoMethod e = false → isSysErrno e = false →
      asErrnoLoop (GoErr.wrapped e) = asErrnoLoop e) := by
  refine ⟨rfl, by decide, fun c => rfl, fun c => rfl, ?_, ?_⟩
  · intro e he
    cases e with
    | errno c => rfl
    | sysErrno c => rfl
    | plain m => rfl
    | wrapped e' => simp [errorsUnwrap] at he
  · intro e h1 h2
    cases e with
    | errno c => simp [hasErrnoMethod] at h1
    | sysErrno c => simp [isSysErrno] at h2
    | plain m => simp [asErrnoLoop]
    | wrapped e' => simp [asErrnoLoop]

/-- Witness for the amended C4: a plain error with no wrapped cause maps
to the sentinel -1 (the repository test expects exactly this for
`Fail(errors.New("oops"))`). -/
theorem c4_asErrno_unwrap_chain_witness :
    AsErrno (some (GoErr.plain "oops")) = -1 :=
  c4_asErrno_unwrap_chain.2.2.2.2.1 (GoErr.plain "oops") rfl

/-- Go `wasm.Memory.isOutOfRange`:
`offset >= size || length > size || offset > size-length`, where `size` is
`uint32(len(mem))`.  The third comparison uses uint32 subtraction in Go,
but it is reached only when `length <= size` (the disjunction
short-circuits), where Nat truncated subtraction agrees with it. -/
def isOutOfRange (mem : List Nat) (offset length : Nat) : Bool :=
  let size := mem.length
  decide (offset ≥ size) || decide (length > size) || decide (offset > size - length)

/-- Go `wasm.Memory.Read`: nil and false when out of range, otherwise the
byte span `mem[offset : offset+length]`. -/
def memRead (mem : List Nat) (offset length : Nat) : Option (List Nat) :=
  if isOutOfRange mem offset length then none
  else some ((mem.drop offset).take length)

/-- Go `wasm.SEGFAULT`: the panic value carrying the faulting offset and
length. -/
structure SEGFAULT where
  offset : Nat
  length : Nat
deriving DecidableEq

/-- Go `wasm.Read`: calls `memory.Read` and panics with `SEGFAULT` when it
reports failure. -/
def wasmRead (mem : List Nat) (offset length : Nat) : Except SEGFAULT (List Nat) :=
  match memRead mem offset length with
  | some bytes => .ok bytes
  | none => .error { offset := offset, length := length }

/-- The Go slice returned by `types.Array[T].load`: `unsafe.Slice` builds
a slice header claiming `length` elements over the bytes actually read;
for a non-wrapping byte span the two agree. -/
structure ArraySlice where
  claimedLen : Nat
  bytes : List Nat
deriving DecidableEq

/-- Go `types.Array[T].load`:
`size := unsafe.Sizeof(T(0)); data := wasm.Read(memory, offset, length*uint32(size))`
— the byte length is computed in uint32 arithmetic and may wrap. -/
def arrayLoad (elemSize : Nat) (mem : List Nat) (offset length : Nat) :
    Except SEGFAULT ArraySlice :=
  (wasmRead mem offset (length * elemSize % 2 ^ 32)).map
    (fun data => { claimedLen := length, bytes := data })

/-- Go `types.Array[T].LoadValue`: offset and length are
`api.DecodeU32(stack[0])` and `api.DecodeU32(stack[1])`, then `load`. -/
def arrayLoadValue (elemSize : Nat) (mem : List Nat) (stack : List Nat) :
    Except SEGFAULT ArraySlice :=
  arrayLoad elemSize mem (decodeU32 (stack.getD 0 0)) (decodeU32 (stack.getD 1 0))

/-- Go `types.Bytes.LoadValue`: delegates to `Array[byte].LoadValue`,
element size 1. -/
def bytesLoadValue (mem : List Nat) (stack : List Nat) : Except SEGFAULT ArraySlice :=
  arrayLoadValue 1 mem stack

/-- Go `types.String.LoadValue`:
`String(wasm.Read(memory, api.DecodeU32(stack[0]), api.DecodeU32(stack[1])))`. -/
def stringLoadValue (mem : List Nat) (stack : List Nat) : Except SEGFAULT (List Nat) :=
  wasmRead mem (decodeU32 (stack.getD 0 0)) (decodeU32 (stack.getD 1 0))

/-- The out-of-range check fires exactly on the spans the spec describes. -/
theorem isOutOfRange_true (mem : List Nat) (offset length : Nat)
    (h : offset ≥ mem.length ∨ offset + length > mem.length) :
    isOutOfRange mem offset length = true := by
  simp only [isOutOfRange, Bool.or_eq_true, decide_eq_true_eq, ge_iff_le, gt_iff_lt]
  omega

/-- C5 counterexample: for `Array` of 8-byte elements, the byte span is
computed as `length*8` in uint32 arithmetic; with length `2^29` it wraps
to 0, the bounds check passes, and decoding returns without a SEGFAULT
even though `offset + length` far exceeds the 16-byte memory. -/
theorem c5_array_wrap_counterexample :
    (0 : Nat) + 2 ^ 29 > (List.replicate 16 0 : List Nat).length ∧
    arrayLoadValue 8 (List.replicate 16 0) [0, 2 ^ 29]
      = .ok { claimedLen := 2 ^ 29, bytes := [] } := by
  constructor
  · norm_num
  · rfl

/-- C5 amended: decoding a `Bytes` or `String` buffer whose
(offset, length) has `offset >= memorySize` or `offset + length >
memorySize` panics with `SEGFAULT`; for `Array[T]` the bounds check
applies to the byte span `length*sizeof(T)` computed in 32-bit arithmetic,
so it panics under the same condition whenever that product does not wrap
modulo `2^32` (element size 1 never wraps), while a wrapping byte span can
pass the check; every such decode routes through the single bounds-checked
`wasm.Read` primitive. -/
theorem c5_bounds_enforcement (mem : List Nat) (offset length : Nat)
    (_hm : mem.length < 2 ^ 32) (ho : offset < 2 ^ 32) (hl : length < 2 ^ 32)
    (h : offset ≥ mem.length ∨ offset + length > mem.length) :
    stringLoadValue mem [offset, length]
      = .error { offset := offset, length := length } ∧
    bytesLoadValue mem [offset, length]
      = .error { offset := offset, length := length } ∧
    (∀ s : Nat, 1 ≤ s → length * s < 2 ^ 32 →
      arrayLoadValue s mem [offset, length]
        = .error { offset := offset, length := length * s }) ∧
    (∀ m st, stringLoadValue m st
      = wasmRead m (decodeU32 (st.getD 0 0)) (decodeU32 (st.getD 1 0))) ∧
    (∀ s m st, arrayLoadValue s m st
      = (wasmRead m (decodeU32 (st.getD 0 0)) (decodeU32 (st.getD 1 0) * s % 2 ^ 32)).map
          (fun data => { claimedLen := decodeU32 (st.getD 1 0), bytes := data })) := by
  have hoo : decodeU32 offset = offset := Nat.mod_eq_of_lt ho
  have hll : decodeU32 length = length := Nat.mod_eq_of_lt hl
  refine ⟨?_, ?_, ?_, fun m st => rfl, fun s m st => rfl⟩
  · show wasmRead mem (decodeU32 offset) (decodeU32 length) = _
    rw [hoo, hll]
    unfold wasmRead memRead
    rw [isOutOfRange_true mem offset length h]
    rfl
  · show arrayLoad 1 mem (decodeU32 offset) (decodeU32 length) = _
    rw [hoo, hll]
    unfold arrayLoad wasmRead memRead
    rw [show length * 1 % 2 ^ 32 = length by omega]
    rw [isOutOfRange_true mem offset length h]
    rfl
  · intro s hs hw
    show arrayLoad s mem (decodeU32 offset) (decodeU32 length) = _
    rw [hoo, hll]
    unfold arrayLoad wasmRead memRead
    rw [Nat.mod_eq_of_lt hw]
    have hmul : length ≤ length * s := Nat.le_mul_of_pos_right length (by omega)
    rw [isOutOfRange_true mem offset (length * s) (by omega)]
    rfl

/-- Witness for the amended C5: a (2,3) span over a 4-byte memory faults
for both the String and the Bytes decoders. -/
theorem c5_bounds_enforcement_witness :
    stringLoadValue (List.replicate 4 0) [2, 3] = .error { offset := 2, length := 3 } ∧
    bytesLoadValue (List.replicate 4 0) [2, 3] = .error { offset := 2, length := 3 } := by
  have h := c5_bounds_enforcement (List.replicate 4 0) 2 3 (by norm_num) (by norm_num)
    (by norm_num) (by simp)
  exact ⟨h.1, h.2.1⟩

/-- The Go runtime panic raised by `binary.LittleEndian.PutUint64` when
the destination slice holds fewer than 8 bytes. -/
inductive WritePanic where
  | indexOutOfRange
deriving DecidableEq

/-- The little-endian byte sequence of the low `n` bytes of `v`. -/
def leBytes : Nat → Nat → List Nat
  | 0, _ => []
  | n + 1, v => v % 256 :: leBytes n (v / 256)

/-- Go `wasm.Memory.WriteUint64Le`.  The source checks
`isOutOfRange(offset, 4)` — four bytes — before an eight-byte
`binary.LittleEndian.PutUint64(mem[offset:], value)`: when the check
passes but fewer than 8 bytes remain, the write panics inside `PutUint64`
instead of returning false. -/
def writeUint64Le (mem : List Nat) (offset v : Nat) :
    Except WritePanic (List Nat × Bool) :=
  if isOutOfRange mem offset 4 then .ok (mem, false)
  else if mem.length < offset + 8 then .error .indexOutOfRange
  else .ok (mem.take offset ++ leBytes 8 v ++ mem.drop (offset + 8), true)

/-- C10: evaluation at the failing input.  On a 16-byte memory at offset
12 the 8-byte span `[12,20)` exceeds the memory, yet the 4-byte bounds
check passes and the write aborts with a runtime panic instead of
returning false; at offset 13 the 4-byte check fails and the function
does return false leaving memory unchanged. -/
theorem c10_writeUint64Le_bounds_bug :
    isOutOfRange (List.replicate 16 0) 12 4 = false ∧
    12 + 8 > (List.replicate 16 0 : List Nat).length ∧
    writeUint64Le (List.replicate 16 0) 12 99 = .error .indexOutOfRange ∧
    writeUint64Le (List.replicate 16 0) 13 99 = .ok (List.replicate 16 0, false) := by
  refine ⟨rfl, by norm_num, rfl, rfl⟩

/-- Go `concatValueTypes` (module.go): append the `ValueTypes()` of each
signature value in order to obtain the flat word-kind sequence. -/
def concatValueTypes (values : List (List ValType)) : List ValType :=
  values.foldl (fun acc v => acc ++ v) []

/-- The slot boundaries computed once at bind time by the `F0`..`F12`
constructors (function.go): `a := len(params1); b := len(params2) + a;
...` yield the windows `[0,a), [a,b), ...`; this models that prefix-sum
computation for any arity. -/
def slotBoundaries : List (List ValType) → Nat → List (Nat × Nat)
  | [], _ => []
  | p :: ps, off => (off, off + p.length) :: slotBoundaries ps (off + p.length)

/-- One argument's sub-window of the flat stack, as sliced by the FN
thunks (`stack[a:b:b]`). -/
def window (stack : List Nat) (b : Nat × Nat) : List Nat :=
  (stack.drop b.1).take (b.2 - b.1)

/-- The concatenation of all argument sub-windows. -/
def joinWindows (bs : List (Nat × Nat)) (stack : List Nat) : List Nat :=
  bs.foldr (fun b acc => window stack b ++ acc) []

/-- Decides that a boundary list is a gapless, overlap-free chain from
`lo` to `hi`: each window starts where the previous one ended. -/
def boundsChain : List (Nat × Nat) → Nat → Nat → Bool
  | [], lo, hi => lo == hi
  | (s, e) :: rest, lo, hi => s == lo && boundsChain rest e hi

/-- `concatValueTypes` is the flattening of its inputs. -/
theorem concatValueTypes_eq_join (values : List (List ValType)) :
    concatValueTypes values = values.flatten := by
  suffices h : ∀ acc : List ValType,
      values.foldl (fun acc v => acc ++ v) acc = acc ++ values.flatten by
    simpa using h []
  induction values with
  | nil => intro acc; simp [List.flatten]
  | cons v vs ih => intro acc; simp [List.flatten, ih, List.append_assoc]

/-- The bind-time boundary chain runs from the base offset to the base
offset plus the total word count. -/
theorem boundsChain_slotBoundaries (ps : List (List ValType)) (off : Nat) :
    boundsChain (slotBoundaries ps off) off (off + (ps.map List.length).sum) = true := by
  induction ps generalizing off with
  | nil => simp [slotBoundaries, boundsChain]
  | cons p rest ih =>
    simp only [slotBoundaries, boundsChain, List.map_cons, List.sum_cons]
    rw [show off + (p.length + (rest.map List.length).sum)
      = (off + p.length) + (rest.map List.length).sum by omega]
    simp [ih]

/-- Window sizes at the bind-time boundaries are the per-argument word
counts. -/
theorem slotBoundaries_sizes (ps : List (List ValType)) (off : Nat) :
    (slotBoundaries ps off).map (fun b => b.2 - b.1) = ps.map List.length := by
  induction ps generalizing off with
  | nil => rfl
  | cons p rest ih => simp [slotBoundaries, ih]

/-- Concatenating the argument sub-windows recovers the contiguous slice
of the stack from the base offset through the total word count. -/
theorem joinWindows_slotBoundaries (ps : List (List ValType)) (off : Nat)
    (stack : List Nat) :
    joinWindows (slotBoundaries ps off) stack
      = (stack.drop off).take ((ps.map List.length).sum) := by
  induction ps generalizing off with
  | nil => simp [slotBoundaries, joinWindows]
  | cons p rest ih =>
    rw [show joinWindows (slotBoundaries (p :: rest) off) stack
      = window stack (off, off + p.length)
        ++ joinWindows (slotBoundaries rest (off + p.length)) stack from rfl]
    rw [show window stack (off, off + p.length) = (stack.drop off).take p.length by
      simp [window]]
    rw [ih (off + p.length)]
    rw [show stack.drop (off + p.length) = (stack.drop off).drop p.length by
      rw [List.drop_drop]]
    rw [← List.take_add]
    simp

/-- C6: for a function bound over parameters P1..Pn, the total parameter
word count equals the sum of each parameter's word count
(`concatValueTypes` versus the individual `ValueTypes()` lengths), and the
slot boundaries computed once at bind time form a gapless, overlap-free
chain partitioning `[0, total)`, with each argument's sub-window having
exactly its own word count and the sub-windows together reconstituting the
leading `total` words of the flat stack. -/
theorem c6_stack_shape_additivity (params : List (List ValType)) :
    (concatValueTypes params).length = (params.map List.length).sum ∧
    boundsChain (slotBoundaries params 0) 0 ((params.map List.length).sum) = true ∧
    (slotBoundaries params 0).map (fun b => b.2 - b.1) = params.map List.length ∧
    (∀ stack : List Nat,
      joinWindows (slotBoundaries params 0) stack
        = stack.take ((params.map List.length).sum)) := by
  refine ⟨?_, ?_, slotBoundaries_sizes params 0, ?_⟩
  · rw [concatValueTypes_eq_join]
    exact List.length_flatten params
  · have h := boundsChain_slotBoundaries params 0
    simpa using h
  · intro stack
    have h := joinWindows_slotBoundaries params 0 stack
    simpa using h

/-- Go `types.Pointer[T]`: a memory reference plus a 32-bit offset; the
target type is supplied separately as an object codec. -/
structure Pointer where
  memory : List Nat
  offset : Nat
deriving DecidableEq

/-- The interface of a `types.Object` implementation needed by `Pointer`
and `List`: its byte size and its byte-record decoder. -/
structure ObjCodec (α : Type) where
  size : Nat
  loadObject : List Nat → α

/-- Go `types.Pointer.LoadValue`: `Pointer[T]{memory, api.DecodeU32(stack[0])}`
— pure arithmetic on the stack word; no memory read happens here. -/
def pointerLoadValue (mem : List Nat) (stack : List Nat) : Pointer :=
  { memory := mem, offset := decodeU32 (stack.getD 0 0) }

/-- Go `types.Pointer.Index`:
`Pointer[T]{arg.memory, arg.offset + uint32(index*objectSize[T]())}` in
uint32 arithmetic. -/
def pointerIndex {α : Type} (c : ObjCodec α) (p : Pointer) (index : Nat) : Pointer :=
  { memory := p.memory, offset := (p.offset + index * c.size % 2 ^ 32) % 2 ^ 32 }

/-- Go `types.Pointer.Object`:
`wasm.Read(arg.memory, arg.offset, uint32(objectSize[T]()))`. -/
def pointerObject {α : Type} (c : ObjCodec α) (p : Pointer) : Except SEGFAULT (List Nat) :=
  wasmRead p.memory p.offset (c.size % 2 ^ 32)

/-- Go `types.Pointer.Load`: `value.LoadObject(arg.memory, arg.Object())`. -/
def pointerLoad {α : Type} (c : ObjCodec α) (p : Pointer) : Except SEGFAULT α :=
  (pointerObject c p).map c.loadObject

/-- Go `types.List[T]`: a typed pointer plus an element count. -/
structure ListVal where
  ptr : Pointer
  len : Nat
deriving DecidableEq

/-- Go `types.List.LoadValue`: the pointer from stack word 0 and
`len: api.DecodeU32(stack[1])` — again pure arithmetic, no memory read. -/
def listLoadValue (mem : List Nat) (stack : List Nat) : ListVal :=
  { ptr := pointerLoadValue mem stack, len := decodeU32 (stack.getD 1 0) }

/-- Go `types.List.Index`: panics when the index is out of `[0, len)`,
otherwise `arg.ptr.Index(index)`; the panic is modelled by `none`. -/
def listIndex {α : Type} (c : ObjCodec α) (l : ListVal) (index : Nat) : Option Pointer :=
  if index < l.len then some (pointerIndex c l.ptr index) else none

/-- The `types.Uint32` object codec (a 4-byte little-endian record). -/
def u32ObjCodec : ObjCodec Nat :=
  { size := Uint32.objectSize, loadObject := Uint32.loadObject }

/-- C8: `Pointer.Index i` addresses `offset + i*objectSize(T)` as a 32-bit
offset, and loading index `i < n` of an n-element `List` goes through
exactly the pointer at that computed offset, so it reproduces the record
stored directly there (read through the same bounds-checked primitive). -/
theorem c8_pointer_indexing {α : Type} (c : ObjCodec α) (p : Pointer) (i : Nat)
    (l : ListVal) :
    (pointerIndex c p i).offset = (p.offset + i * c.size) % 2 ^ 32 ∧
    (pointerIndex c p i).memory = p.memory ∧
    (i < l.len → listIndex c l i = some (pointerIndex c l.ptr i)) ∧
    (i < l.len →
      (listIndex c l i).map (fun q => pointerLoad c q)
        = some ((wasmRead l.ptr.memory ((l.ptr.offset + i * c.size) % 2 ^ 32)
            (c.size % 2 ^ 32)).map c.loadObject)) := by
  have hoff : (pointerIndex c p i).offset = (p.offset + i * c.size) % 2 ^ 32 := by
    simp only [pointerIndex]
    omega
  refine ⟨hoff, rfl, ?_, ?_⟩
  · intro h
    simp [listIndex, h]
  · intro h
    simp only [listIndex, if_pos h, Option.map_some']
    congr 1
    show (wasmRead (pointerIndex c l.ptr i).memory (pointerIndex c l.ptr i).offset
      (c.size % 2 ^ 32)).map c.loadObject = _
    rw [show (pointerIndex c l.ptr i).memory = l.ptr.memory from rfl]
    rw [show (pointerIndex c l.ptr i).offset = (l.ptr.offset + i * c.size) % 2 ^ 32 by
      simp only [pointerIndex]; omega]

/-- Witness for C8: index 1 of a 2-element list of 4-byte records over the
8-byte memory `[1,0,0,0, 2,0,0,0]` loads the record value 2 stored at
offset 4. -/
theorem c8_pointer_indexing_witness :
    listIndex u32ObjCodec
        { ptr := { memory := [1, 0, 0, 0, 2, 0, 0, 0], offset := 0 }, len := 2 } 1
      = some (pointerIndex u32ObjCodec
          { memory := [1, 0, 0, 0, 2, 0, 0, 0], offset := 0 } 1) ∧
    (listIndex u32ObjCodec
        { ptr := { memory := [1, 0, 0, 0, 2, 0, 0, 0], offset := 0 }, len := 2 } 1).map
        (fun q => pointerLoad u32ObjCodec q)
      = some ((wasmRead [1, 0, 0, 0, 2, 0, 0, 0] ((0 + 1 * u32ObjCodec.size) % 2 ^ 32)
          (u32ObjCodec.size % 2 ^ 32)).map u32ObjCodec.loadObject) := by
  have h := c8_pointer_indexing u32ObjCodec
    { memory := [1, 0, 0, 0, 2, 0, 0, 0], offset := 0 } 1
    { ptr := { memory := [1, 0, 0, 0, 2, 0, 0, 0], offset := 0 }, len := 2 }
  exact ⟨h.2.2.1 (by decide), h.2.2.2 (by decide)⟩

/-- C9: decoding a `Pointer` or `List` parameter is pure arithmetic on the
stack words — the extracted offset and length do not depend on the memory
contents — and the actual bytes are read only by `Load`, which routes
through the bounds-checked `wasm.Read` primitive. -/
theorem c9_lazy_pointer_decode {α : Type} (c : ObjCodec α) (m1 m2 : List Nat)
    (stack : List Nat) :
    (pointerLoadValue m1 stack).offset = (pointerLoadValue m2 stack).offset ∧
    (listLoadValue m1 stack).ptr.offset = (listLoadValue m2 stack).ptr.offset ∧
    (listLoadValue m1 stack).len = (listLoadValue m2 stack).len ∧
    (pointerLoadValue m1 stack).offset = decodeU32 (stack.getD 0 0) ∧
    (listLoadValue m1 stack).len = decodeU32 (stack.getD 1 0) ∧
    (∀ p : Pointer,
      pointerLoad c p = (wasmRead p.memory p.offset (c.size % 2 ^ 32)).map c.loadObject) :=
  ⟨rfl, rfl, rfl, rfl, rfl, fun _ => rfl⟩

mutual
/-- A Go type as classified by the layout engine `objectTypeOf`
(struct.go): a primitive scalar kind, a fixed-size array, or a struct
with an ordered field list. -/
inductive GoTy where
  | i8
  | i16
  | i32
  | i64
  | u8
  | u16
  | u32
  | u64
  | f32
  | f64
  | arr (elem : GoTy) (len : Nat)
  | strct (fields : List GoField)

/-- A Go struct field as seen through `reflect`: declared name, whether it
is an anonymous (embedded) field, its Go-layout byte offset within its
immediately containing struct (`reflect.StructField.Offset`), the optional
`name:"..."` tag value, the optional `size:"..."` tag value (pre-parsed,
as `strconv.Atoi` leaves it), and its type. -/
inductive GoField where
  | mk (name : String) (anon : Bool) (goOffset : Nat)
      (tagName : Option String) (tagSize : Option Nat) (ty : GoTy)
end

/-- Declared field name (`reflect.StructField.Name`). -/
def GoField.name : GoField → String
  | .mk n _ _ _ _ _ => n

/-- Whether the field is anonymous (`reflect.StructField.Anonymous`). -/
def GoField.anon : GoField → Bool
  | .mk _ a _ _ _ _ => a

/-- Go-layout byte offset within the immediately containing struct. -/
def GoField.goOffset : GoField → Nat
  | .mk _ _ o _ _ _ => o

/-- The `name:"..."` tag value, when present and non-empty. -/
def GoField.tagName : GoField → Option String
  | .mk _ _ _ tn _ _ => tn

/-- The `size:"..."` tag value, when present and non-empty. -/
def GoField.tagSize : GoField → Option Nat
  | .mk _ _ _ _ ts _ => ts

/-- The field's Go type. -/
def GoField.ty : GoField → GoTy
  | .mk _ _ _ _ _ t => t

/-- Go `reflect.VisibleFields`: all visible fields of a struct in
declaration order, each anonymous struct member followed immediately by
its own visible (promoted) fields; every returned field keeps the
`Offset` it has inside its immediately containing struct.  Modelled for
struct types without field-name collisions, where the shadowing rules of
the walker never fire.  The fuel argument only bounds the embedding
depth; the wrappers below pass the nesting depth plus one, which strictly
exceeds it. -/
def visibleFieldsF : Nat → List GoField → List GoField
  | 0, _ => []
  | fuel + 1, fs =>
    fs.flatMap fun f =>
      f :: (match f.anon, f.ty with
        | true, .strct inner => visibleFieldsF fuel inner
        | _, _ => [])

/-- Go `structField` (struct.go): the exposed name, the derived or
tag-overridden byte size, and the Go-struct offset used for host-side
access.  The nested codec `typ` is determined by the field's Go type,
recorded here as that type. -/
structure StructField where
  name : String
  ty : GoTy
  size : Nat
  offset : Nat

/-- The layout engine, as a fuel-indexed pair of
(a) `objectTypeOf(t).objectSize()`: primitive sizes 1/2/4/8, arrays
`len * elemSize`, structs the sum of their computed field sizes; and
(b) `appendStructFields(fields, t, offset)`: iterate
`reflect.VisibleFields(t)`; an anonymous field recurses into its type at
the accumulated offset; any other field is appended with its tag-resolved
name and size, unless the resolved name is "-".  The fuel only bounds the
embedding depth of the recursion (each nested call strictly decreases the
type's depth), so every wrapper below passes the nesting depth plus one,
which strictly exceeds it; the base case is never reached. -/
def engineF :
    Nat → ((GoTy → Nat) × (List StructField → List GoField → Nat → List StructField))
  | 0 => (fun _ => 0, fun acc _ _ => acc)
  | fuel + 1 =>
    let objectSizeRec := (engineF fuel).1
    let appendFieldsRec := (engineF fuel).2
    ( fun t =>
        match t with
        | .i8 => 1
        | .i16 => 2
        | .i32 => 4
        | .i64 => 8
        | .u8 => 1
        | .u16 => 2
        | .u32 => 4
        | .u64 => 8
        | .f32 => 4
        | .f64 => 8
        | .arr e n => n * objectSizeRec e
        | .strct fs => (appendFieldsRec [] fs 0).foldl (fun a f => a + f.size) 0,
      fun acc fs offset =>
        (visibleFieldsF (fuel + 1) fs).foldl
          (fun acc f =>
            let fieldOffset := offset + f.goOffset
            if f.anon then
              match f.ty with
              | .strct inner => appendFieldsRec acc inner fieldOffset
              | _ => acc
            else
              let fieldName := match f.tagName with
                | some nm => nm
                | none => f.name
              let fieldSize := match f.tagSize with
                | some n => n
                | none => objectSizeRec f.ty
              if fieldName == "-" then acc
              else acc ++ [{ name := fieldName, ty := f.ty, size := fieldSize,
                             offset := fieldOffset }])
          acc )

mutual
/-- Nesting depth of a Go type: a strict bound on the recursion depth of
the layout engine, used as its fuel. -/
def tyDepth : GoTy → Nat
  | .strct fs => fieldsDepth fs + 1
  | .arr e _ => tyDepth e + 1
  | _ => 1

/-- Nesting depth of a field list. -/
def fieldsDepth : List GoField → Nat
  | [] => 0
  | f :: rest => max (fieldDepth f) (fieldsDepth rest)

/-- Nesting depth of a field. -/
def fieldDepth : GoField → Nat
  | .mk _ _ _ _ _ t => tyDepth t
end

/-- Go `objectTypeOf(t).objectSize()` at adequate fuel. -/
def objectSizeOf (t : GoTy) : Nat :=
  (engineF (tyDepth t + 1)).1 t

/-- Go `structFieldsOf` (struct.go): `appendStructFields(fields, t, 0)`
starting from an empty accumulator, at adequate fuel. -/
def structFieldsOf (fs : List GoField) : List StructField :=
  (engineF (fieldsDepth fs + 1)).2 [] fs 0

/-- Go `structTypeOf(t).objectSize()`: the sum of the computed field
sizes, with no padding added. -/
def structObjectSize (fs : List GoField) : Nat :=
  (structFieldsOf fs).foldl (fun a f => a + f.size) 0

/-- The embedded sub-struct `A` with a single `Y int32` field. -/
def innerA : List GoField :=
  [GoField.mk "Y" false 0 none none .i32]

/-- `struct A; X int32` with `A = struct Y int32` embedded anonymously
(Go layout puts `X` at byte offset 4). -/
def embeddedS : List GoField :=
  [GoField.mk "A" true 0 none none (.strct innerA),
   GoField.mk "X" false 4 none none .i32]

/-- The same fields declared inline: `struct Y int32; X int32`. -/
def inlineS : List GoField :=
  [GoField.mk "Y" false 0 none none .i32,
   GoField.mk "X" false 4 none none .i32]

/-- A field with both a `name:"x"` and a `size:"8"` tag override. -/
def taggedS : List GoField :=
  [GoField.mk "X" false 0 (some "x") (some 8) .i32]

/-- A field whose resolved name is "-", which the engine skips. -/
def skippedS : List GoField :=
  [GoField.mk "X" false 0 (some "-") none .i32]

/-- C7, evaluated at the failing input: flattening an embedded sub-struct
duplicates its fields, because `reflect.VisibleFields` already lists the
promoted fields right after the anonymous member while
`appendStructFields` also recurses into the member.  The embedded variant
computes field list Y,Y,X and byte size 12 where the inline declaration
computes Y,X and byte size 8 — so an embedded sub-record does not yield
the same field list, sizes, and offsets as declaring its fields inline.
A struct with zero fields does have byte size zero and an empty field
list. -/
theorem c7_embedded_struct_duplication :
    (structFieldsOf embeddedS).map StructField.name = ["Y", "Y", "X"] ∧
    structObjectSize embeddedS = 12 ∧
    (structFieldsOf inlineS).map StructField.name = ["Y", "X"] ∧
    structObjectSize inlineS = 8 ∧
    structObjectSize embeddedS ≠ structObjectSize inlineS ∧
    structObjectSize [] = 0 ∧
    (structFieldsOf []).map StructField.name = [] ∧
    (structFieldsOf taggedS).map StructField.name = ["x"] ∧
    (structFieldsOf taggedS).map StructField.size = [8] ∧
    (structFieldsOf skippedS).map StructField.name = [] := by
  refine ⟨rfl, rfl, rfl, rfl, by decide, rfl, rfl, rfl, rfl, rfl⟩

end Wazergo
